import Mathlib

/-!
Verification of the concurrency / flow-control core of `src/src/core.rs`
(the `Core` struct: credit-based backpressure between an inbound serial
reader task and an outbound serial writer task).

The embedding is a labeled transition system over an explicit state.
Each label corresponds to one lock-protected (hence atomic) action of one
of the tasks in `core.rs`, or to one caller-facing operation of `Core`.
External collaborators (the serial transport and the MSP frame codec) are
modelled by the labels carrying their outcomes: a read can time out,
error, or deliver bytes whose per-byte parse outcome is a decoded frame,
a CRC error, or "incomplete"; a write can succeed, time out, or fail
hard; serialization of a dequeued packet can succeed or fail.

Packets are opaque; we identify them by a natural number.
-/

namespace BlackboxPuller

/-- A decoded/submitted MSP packet, opaque to the core; identified by id. -/
abbrev Packet := Nat

/-- Control state of the outbound writer task (`Core::process_output`).
`acquire` is the loop head blocked in `cvar.wait_until`; `dequeue` is just
after the credit was taken, before `msp_writer_recv.recv()`; `serializing p`
is after the packet was dequeued, before `serialize_v2`; `writing p` is the
inner write-retry loop; `done` is the `break` on queue closure; `panicked`
is the task aborted by `.expect("Failed to serialize")`. -/
inductive OutPC where
  | acquire
  | dequeue
  | serializing (p : Packet)
  | writing (p : Packet)
  | done
  | panicked
  deriving DecidableEq, Repr

/-- Control state of the inbound reader task (`Core::process_input`) at the
granularity of one parsed byte: `reading` is anywhere in the read/parse
loop outside the two lock-protected actions; `releasing` is between
`msp_reader_send.send(p)` and the credit increment under `lock`. -/
inductive InPC where
  | reading
  | releasing
  deriving DecidableEq, Repr

/-- The shared state of the running core.

* `bufferSize` — the `buffer_size` passed to `Core::start`, also the value
  `initial_buffer_size` read once by the inbound task (lines 82–84).
* `credit` — the `usize` inside `serial_write_lock : Arc<(Mutex<usize>, Condvar)>`,
  initialized to `buffer_size` (line 47).
* `inQueue` / `outQueue` — contents of the bounded channels created in
  `Core::new` with capacities 4096 and 1024 (lines 29–30).
* `wire` — ghost history: packets written to the serial transport by a
  successful `serial.write` (line 163).
* `submitted` / `received` — ghost histories of `Core::write` calls and of
  packets handed out by `Core::read`.
* `coreAlive` — whether at least one clone of the `Core` value (which owns
  a `Sender` and `Receiver` of both channels, lines 16–24) is still alive. -/
structure CoreState where
  bufferSize : Nat
  credit : Nat
  inQueue : List Packet
  outQueue : List Packet
  wire : List Packet
  submitted : List Packet
  received : List Packet
  outPC : OutPC
  inPC : InPC
  coreAlive : Bool
  deriving DecidableEq, Repr

/-- State right after `Core::start(serial, delay, buffer_size)` succeeded:
credit is `buffer_size`, queues are empty, both tasks at their loop heads. -/
def initState (bufferSize : Nat) : CoreState :=
  { bufferSize := bufferSize
    credit := bufferSize
    inQueue := []
    outQueue := []
    wire := []
    submitted := []
    received := []
    outPC := OutPC.acquire
    inPC := InPC.reading
    coreAlive := true }

/-- Labels: one per atomic action of the tasks and callers in `core.rs`. -/
inductive Label where
  /-- Caller runs `Core::write(packet)`, i.e. `msp_writer_send.send(packet)`. -/
  | submit (p : Packet)
  /-- Caller runs `Core::read` and the inbound channel has a packet. -/
  | readSome
  /-- The last clone of the `Core` value is dropped. -/
  | dropCore
  /-- Inbound task: `parser.parse(byte)` returned `Ok(Some(p))` and
  `msp_reader_send.send(p)` completed (lines 95–97). -/
  | inFrame (p : Packet)
  /-- Inbound task: `parser.parse(byte)` returned `Err(e)` — bad CRC, only
  logged (line 107). -/
  | inBadCrc
  /-- Inbound task: `parser.parse(byte)` returned `Ok(None)` (line 108). -/
  | inIncomplete
  /-- Inbound task: `serial.read` returned `TimedOut` (lines 112–114). -/
  | inReadTimeout
  /-- Inbound task: `serial.read` returned another error — logged (line 115). -/
  | inReadErr
  /-- Inbound task: the credit update under `lock` after a send
  (lines 100–105). -/
  | inRelease
  /-- Outbound task: `cvar.wait_until` found `send_count > 0` and
  decremented it (lines 138–145). -/
  | outAcquire
  /-- Outbound task: `msp_writer_recv.recv()` returned `Ok(packet)` (line 149). -/
  | outDequeue
  /-- Outbound task: `msp_writer_recv.recv()` returned `Err(_)` → `break`
  (line 148). -/
  | outDequeueClosed
  /-- Outbound task: `packet.serialize_v2(&mut output)` returned `Ok` (line 156). -/
  | outSerializeOk
  /-- Outbound task: `serialize_v2` returned `Err` → `.expect` panics (line 157). -/
  | outSerializeErr
  /-- Outbound task: `serial.write(&output)` returned `Ok(_)` → `break` (line 163). -/
  | outWriteOk
  /-- Outbound task: `serial.write` returned `TimedOut` → yield, retry
  (lines 164–168). -/
  | outWriteTimeout
  /-- Outbound task: `serial.write` returned another error →
  `*(lock.lock().await) += 1`, log, retry (lines 169–172). -/
  | outWriteErr
  deriving DecidableEq, Repr

/-- Capacity of the inbound channel (`channel::<MspPacket>(4096)`, line 29). -/
def readerCap : Nat := 4096

/-- Capacity of the outbound channel (`channel::<MspPacket>(1024)`, line 30). -/
def writerCap : Nat := 1024

/-- Number of live `Sender<MspPacket>` handles of the inbound (reader)
channel: one inside every live `Core` clone (field `msp_reader_send`), plus
the clone captured by the inbound task (line 50). `Core::start` discards the
`Arc<AtomicBool>` stop flag returned by `process_input`, so the inbound task
can never be stopped and its sender is never dropped. -/
def readerSenderCount (s : CoreState) : Nat :=
  (if s.coreAlive then 1 else 0) + 1

/-- Number of live `Sender<MspPacket>` handles of the outbound (writer)
channel: only the `Core` clones hold `msp_writer_send`; `process_output`
receives only the `Receiver`. -/
def writerSenderCount (s : CoreState) : Nat :=
  if s.coreAlive then 1 else 0

/-- An async-std bounded channel's `recv` returns `Err` (permanent closure)
exactly when every `Sender` has been dropped and the buffer is empty. -/
def readerClosed (s : CoreState) : Bool :=
  decide (readerSenderCount s = 0) && s.inQueue.isEmpty

/-- Closure condition of the outbound channel, as seen by
`msp_writer_recv.recv()` in `process_output` (line 147). -/
def writerClosed (s : CoreState) : Bool :=
  decide (writerSenderCount s = 0) && s.outQueue.isEmpty

/-- The credit update performed by the inbound task after a decoded frame
was sent (lines 100–105): increment only while strictly below the initial
buffer size, and `cvar.notify_one()` exactly when the increment happened.
Returns (new counter, whether a waiter was notified). -/
def inboundRelease (bufferSize credit : Nat) : Nat × Bool :=
  if credit < bufferSize then (credit + 1, true) else (credit, false)

/-- The credit refund performed by the outbound task on a hard (non-timeout)
write error (line 170): `*(lock.lock().await) += 1` — unconditional, no cap
and no `notify_one`. Returns (new counter, whether a waiter was notified). -/
def outboundRefund (credit : Nat) : Nat × Bool :=
  (credit + 1, false)

/-- One atomic step of the system. `none` means the label is not enabled in
`s` (the corresponding task is blocked there, or control is elsewhere). -/
def step (s : CoreState) : Label → Option CoreState
  | Label.submit p =>
      -- `send` on a bounded channel suspends while the buffer is full.
      if s.coreAlive && decide (s.outQueue.length < writerCap) then
        some { s with outQueue := s.outQueue ++ [p], submitted := s.submitted ++ [p] }
      else none
  | Label.readSome =>
      match s.inQueue with
      | p :: rest => some { s with inQueue := rest, received := s.received ++ [p] }
      | [] => none
  | Label.dropCore =>
      if s.coreAlive then some { s with coreAlive := false } else none
  | Label.inFrame p =>
      if s.inPC = InPC.reading && decide (s.inQueue.length < readerCap) then
        some { s with inQueue := s.inQueue ++ [p], inPC := InPC.releasing }
      else none
  | Label.inBadCrc =>
      if s.inPC = InPC.reading then some s else none
  | Label.inIncomplete =>
      if s.inPC = InPC.reading then some s else none
  | Label.inReadTimeout =>
      if s.inPC = InPC.reading then some s else none
  | Label.inReadErr =>
      if s.inPC = InPC.reading then some s else none
  | Label.inRelease =>
      if s.inPC = InPC.releasing then
        some { s with credit := (inboundRelease s.bufferSize s.credit).1, inPC := InPC.reading }
      else none
  | Label.outAcquire =>
      if s.outPC = OutPC.acquire && decide (0 < s.credit) then
        some { s with credit := s.credit - 1, outPC := OutPC.dequeue }
      else none
  | Label.outDequeue =>
      match s.outPC, s.outQueue with
      | OutPC.dequeue, p :: rest =>
          some { s with outQueue := rest, outPC := OutPC.serializing p }
      | _, _ => none
  | Label.outDequeueClosed =>
      if s.outPC = OutPC.dequeue && writerClosed s then
        some { s with outPC := OutPC.done }
      else none
  | Label.outSerializeOk =>
      match s.outPC with
      | OutPC.serializing p => some { s with outPC := OutPC.writing p }
      | _ => none
  | Label.outSerializeErr =>
      match s.outPC with
      | OutPC.serializing _ => some { s with outPC := OutPC.panicked }
      | _ => none
  | Label.outWriteOk =>
      match s.outPC with
      | OutPC.writing p => some { s with wire := s.wire ++ [p], outPC := OutPC.acquire }
      | _ => none
  | Label.outWriteTimeout =>
      match s.outPC with
      | OutPC.writing _ => some s
      | _ => none
  | Label.outWriteErr =>
      match s.outPC with
      | OutPC.writing _ => some { s with credit := (outboundRefund s.credit).1 }
      | _ => none

/-- Run a sequence of labels from a state; `none` if some label is not
enabled where it occurs. -/
def runFrom (s : CoreState) : List Label → Option CoreState
  | [] => some s
  | l :: ls =>
      match step s l with
      | some t => runFrom t ls
      | none => none

/-- `Core::read`: `msp_reader_recv.recv().await`, mapped to `Option`
(lines 54–59). Result: `none` = the caller stays suspended; `some (r, t)` =
`recv` returned, with `r = none` exactly on channel closure. -/
def readRecv (s : CoreState) : Option (Option Packet × CoreState) :=
  match s.inQueue with
  | p :: rest => some (some p, { s with inQueue := rest, received := s.received ++ [p] })
  | [] => if readerClosed s then some (none, s) else none

/-- Outcome of `Core::start` (lines 44–52): both `serial.clear(...)` and
`serial.try_clone()` are followed by `.unwrap()`, which panics on `Err`. -/
inductive StartResult where
  | panicked
  | started (s : CoreState)
  deriving DecidableEq, Repr

/-- `Core::start`, with the transport's two fallible collaborator calls
(`clear`, `try_clone`) as oracle inputs. On success it seeds the credit
counter with `buffer_size` and launches both tasks. -/
def startCore (clearOk : Bool) (cloneOk : Bool) (bufferSize : Nat) : StartResult :=
  if !clearOk then StartResult.panicked
  else if !cloneOk then StartResult.panicked
  else StartResult.started (initState bufferSize)

/-- Outcome of one attempt of `serial.write(&output)` in the inner retry
loop of `process_output` (lines 161–174). -/
inductive WriteRes where
  | ok
  | timedOut
  | err
  deriving DecidableEq, Repr

/-- The inner write-retry loop of `process_output` (lines 161–174) for one
frame, driven by the oracle list of outcomes of successive `serial.write`
attempts. Returns (final credit, copies of the frame that reached the
transport, whether the loop exited). `Ok` breaks; `TimedOut` yields and
retries with no credit change; any other error increments the shared credit
counter (the refund, line 170), logs, and retries. An exhausted oracle
means the loop is still retrying. -/
def writeLoop : List WriteRes → Nat → Nat × Nat × Bool
  | [], credit => (credit, 0, false)
  | WriteRes.ok :: _, credit => (credit, 1, true)
  | WriteRes.timedOut :: rest, credit => writeLoop rest credit
  | WriteRes.err :: rest, credit => writeLoop rest ((outboundRefund credit).1)

/-- Packets in the hands of the outbound task: dequeued from the channel
but not yet successfully written to the transport. -/
def inflight : OutPC → List Packet
  | OutPC.serializing p => [p]
  | OutPC.writing p => [p]
  | _ => []

/-- The outbound writer task has terminated, either by the `break` on
channel closure (line 148) or by the serialization panic (line 157). -/
def outTerminated (s : CoreState) : Prop :=
  s.outPC = OutPC.done ∨ s.outPC = OutPC.panicked

instance (s : CoreState) : Decidable (outTerminated s) := by
  unfold outTerminated; infer_instance

/-- FIFO bookkeeping of the outbound path: the submission history is always
the transmitted prefix, then the packet held by the writer task (if any),
then the queued packets — except after the serialization panic, where the
held packet is lost but the wire is still a prefix of the submissions. -/
def OrderInv (s : CoreState) : Prop :=
  s.submitted = s.wire ++ inflight s.outPC ++ s.outQueue
  ∨ (s.outPC = OutPC.panicked ∧ ∃ mid, s.submitted = s.wire ++ mid)

/-- The canonical schedule for C5: submit each packet and let the outbound
task carry it all the way to the transport before the next submission. -/
def c5Sched : List Packet → List Label
  | [] => []
  | p :: ps =>
      Label.submit p :: Label.outAcquire :: Label.outDequeue ::
        Label.outSerializeOk :: Label.outWriteOk :: c5Sched ps

/-- The state of the C6 scenario after F1 = packet 1 was written: reached
from `initState 1` by submitting packets 1 and 2 and letting the outbound
task transmit packet 1. -/
def c6Mid : CoreState :=
  { bufferSize := 1
    credit := 0
    inQueue := []
    outQueue := [2]
    wire := [1]
    submitted := [1, 2]
    received := []
    outPC := OutPC.acquire
    inPC := InPC.reading
    coreAlive := true }

/-! ## Helper lemmas -/

/-- Every step preserves the recorded `buffer_size`. -/
lemma bufferSize_of_step {s t : CoreState} {l : Label} (h : step s l = some t) :
    t.bufferSize = s.bufferSize := by
  cases l <;> simp only [step] at h <;> (repeat' split at h) <;>
    cases h <;> rfl

/-- No copy of a frame is duplicated by the write-retry loop: at most one
copy reaches the transport. -/
lemma writeLoop_copies_le_one (rs : List WriteRes) : ∀ c, (writeLoop rs c).2.1 ≤ 1 := by
  induction rs with
  | nil => intro c; simp [writeLoop]
  | cons r rest ih =>
      intro c
      cases r <;> simp [writeLoop] <;> exact ih _

/-- A step other than the hard-write-failure refund keeps the credit
counter at or below `buffer_size`. -/
lemma credit_le_of_step {s t : CoreState} {l : Label} (h : step s l = some t)
    (hl : l ≠ Label.outWriteErr) (hs : s.credit ≤ s.bufferSize) :
    t.credit ≤ t.bufferSize := by
  cases l <;> first
    | exact absurd rfl hl
    | (simp only [step] at h
       (repeat' split at h) <;> cases h <;>
         first
           | exact hs
           | (show (inboundRelease s.bufferSize s.credit).1 ≤ s.bufferSize
              simp only [inboundRelease]
              split <;> simp <;> omega)
           | (show s.credit - 1 ≤ s.bufferSize
              omega))

/-- `buffer_size` is constant along any run. -/
lemma bufferSize_of_runFrom : ∀ (ls : List Label) (s t : CoreState),
    runFrom s ls = some t → t.bufferSize = s.bufferSize := by
  intro ls
  induction ls with
  | nil => intro s t h; cases h; rfl
  | cons l rest ih =>
      intro s t h
      simp only [runFrom] at h
      cases heq : step s l with
      | none => rw [heq] at h; cases h
      | some u =>
          rw [heq] at h
          rw [ih u t h, bufferSize_of_step heq]

/-- Along any run without hard write failures, the credit counter stays at
or below `buffer_size`. -/
lemma credit_le_runFrom : ∀ (ls : List Label) (s t : CoreState),
    Label.outWriteErr ∉ ls → s.credit ≤ s.bufferSize → runFrom s ls = some t →
    t.credit ≤ t.bufferSize := by
  intro ls
  induction ls with
  | nil => intro s t _ hs h; cases h; exact hs
  | cons l rest ih =>
      intro s t hmem hs h
      simp only [runFrom] at h
      cases heq : step s l with
      | none => rw [heq] at h; cases h
      | some u =>
          rw [heq] at h
          have hl : l ≠ Label.outWriteErr := by
            intro e; subst e; exact hmem (List.mem_cons_self _ _)
          exact ih u t (fun hm => hmem (List.mem_cons_of_mem _ hm))
            (credit_le_of_step heq hl hs) h

/-- `OrderInv` is preserved when a step leaves the outbound bookkeeping
fields untouched. -/
lemma orderInv_untouched {s : CoreState} (t : CoreState)
    (hsub : t.submitted = s.submitted) (hw : t.wire = s.wire)
    (hq : t.outQueue = s.outQueue) (hpc : t.outPC = s.outPC)
    (hs : OrderInv s) : OrderInv t := by
  rcases hs with hinv | ⟨hp, mid, hmid⟩
  · left; rw [hsub, hw, hq, hpc]; exact hinv
  · right; exact ⟨by rw [hpc]; exact hp, mid, by rw [hsub, hw]; exact hmid⟩

/-- Every step preserves the FIFO bookkeeping invariant. -/
lemma orderInv_step {s t : CoreState} {l : Label} (h : step s l = some t)
    (hs : OrderInv s) : OrderInv t := by
  cases l with
  | submit p =>
      simp only [step] at h
      split at h
      · cases h
        rcases hs with hinv | ⟨hp, mid, hmid⟩
        · left
          show s.submitted ++ [p] = s.wire ++ inflight s.outPC ++ (s.outQueue ++ [p])
          rw [hinv]; simp
        · right
          refine ⟨hp, mid ++ [p], ?_⟩
          show s.submitted ++ [p] = s.wire ++ (mid ++ [p])
          rw [hmid]; simp
      · cases h
  | readSome =>
      simp only [step] at h
      split at h
      · cases h; exact orderInv_untouched _ rfl rfl rfl rfl hs
      · cases h
  | dropCore =>
      simp only [step] at h
      split at h
      · cases h; exact orderInv_untouched _ rfl rfl rfl rfl hs
      · cases h
  | inFrame p =>
      simp only [step] at h
      split at h
      · cases h; exact orderInv_untouched _ rfl rfl rfl rfl hs
      · cases h
  | inBadCrc =>
      simp only [step] at h
      split at h <;> cases h
      exact hs
  | inIncomplete =>
      simp only [step] at h
      split at h <;> cases h
      exact hs
  | inReadTimeout =>
      simp only [step] at h
      split at h <;> cases h
      exact hs
  | inReadErr =>
      simp only [step] at h
      split at h <;> cases h
      exact hs
  | inRelease =>
      simp only [step] at h
      split at h
      · cases h; exact orderInv_untouched _ rfl rfl rfl rfl hs
      · cases h
  | outAcquire =>
      simp only [step] at h
      split at h
      · next hg =>
          simp only [Bool.and_eq_true, decide_eq_true_eq] at hg
          cases h
          rcases hs with hinv | ⟨hp, mid, hmid⟩
          · left
            show s.submitted = s.wire ++ inflight OutPC.dequeue ++ s.outQueue
            rw [hg.1] at hinv
            exact hinv
          · exact absurd (hg.1 ▸ hp) (by intro e; cases e)
      · cases h
  | outDequeue =>
      simp only [step] at h
      split at h
      · next p rest hg hq =>
          cases h
          rcases hs with hinv | ⟨hp, mid, hmid⟩
          · left
            show s.submitted = s.wire ++ inflight (OutPC.serializing p) ++ rest
            rw [hinv, hg, hq]
            simp [inflight]
          · rw [hp] at hg; cases hg
      · cases h
  | outDequeueClosed =>
      simp only [step] at h
      split at h
      · next hg =>
          simp only [Bool.and_eq_true, decide_eq_true_eq] at hg
          cases h
          rcases hs with hinv | ⟨hp, mid, hmid⟩
          · left
            show s.submitted = s.wire ++ inflight OutPC.done ++ s.outQueue
            rw [hg.1] at hinv
            exact hinv
          · exact absurd (hg.1 ▸ hp) (by intro e; cases e)
      · cases h
  | outSerializeOk =>
      simp only [step] at h
      split at h
      · next p hg =>
          cases h
          rcases hs with hinv | ⟨hp, mid, hmid⟩
          · left
            show s.submitted = s.wire ++ inflight (OutPC.writing p) ++ s.outQueue
            rw [hg] at hinv
            exact hinv
          · rw [hp] at hg; cases hg
      · cases h
  | outSerializeErr =>
      simp only [step] at h
      split at h
      · next p hg =>
          cases h
          rcases hs with hinv | ⟨hp, mid, hmid⟩
          · right
            refine ⟨rfl, p :: s.outQueue, ?_⟩
            show s.submitted = s.wire ++ (p :: s.outQueue)
            rw [hg] at hinv
            rw [hinv]
            simp [inflight]
          · exact Or.inr ⟨rfl, mid, hmid⟩
      · cases h
  | outWriteOk =>
      simp only [step] at h
      split at h
      · next p hg =>
          cases h
          rcases hs with hinv | ⟨hp, mid, hmid⟩
          · left
            show s.submitted = (s.wire ++ [p]) ++ inflight OutPC.acquire ++ s.outQueue
            rw [hg] at hinv
            rw [hinv]
            simp [inflight]
          · rw [hp] at hg; cases hg
      · cases h
  | outWriteTimeout =>
      simp only [step] at h
      split at h <;> cases h
      exact hs
  | outWriteErr =>
      simp only [step] at h
      split at h
      · cases h; exact orderInv_untouched _ rfl rfl rfl rfl hs
      · cases h

/-- The FIFO bookkeeping invariant holds along any run. -/
lemma orderInv_runFrom : ∀ (ls : List Label) (s t : CoreState),
    OrderInv s → runFrom s ls = some t → OrderInv t := by
  intro ls
  induction ls with
  | nil => intro s t hs h; cases h; exact hs
  | cons l rest ih =>
      intro s t hs h
      simp only [runFrom] at h
      cases heq : step s l with
      | none => rw [heq] at h; cases h
      | some u =>
          rw [heq] at h
          exact ih u t (orderInv_step heq hs) h

/-- Running the canonical schedule appends exactly the scheduled packets,
in order, to both the wire and the submission history. -/
lemma c5Sched_run : ∀ (fs : List Packet) (s : CoreState),
    s.coreAlive = true → s.outPC = OutPC.acquire → s.outQueue = [] →
    fs.length ≤ s.credit →
    ∃ t, runFrom s (c5Sched fs) = some t
      ∧ t.wire = s.wire ++ fs ∧ t.submitted = s.submitted ++ fs := by
  intro fs
  induction fs with
  | nil => intro s _ _ _ _; exact ⟨s, rfl, by simp, by simp⟩
  | cons p ps ih =>
      intro s hA hPC hQ hn
      have hc : 0 < s.credit := by
        simp only [List.length_cons] at hn
        omega
      have e1 : step s (Label.submit p)
          = some { s with outQueue := [p], submitted := s.submitted ++ [p] } := by
        simp [step, hA, hQ, writerCap]
      have e2 : step { s with outQueue := [p], submitted := s.submitted ++ [p] }
          Label.outAcquire
          = some { s with outQueue := [p], submitted := s.submitted ++ [p],
                          credit := s.credit - 1, outPC := OutPC.dequeue } := by
        simp [step, hPC, hc]
      have e3 : step { s with outQueue := [p], submitted := s.submitted ++ [p],
                              credit := s.credit - 1, outPC := OutPC.dequeue }
          Label.outDequeue
          = some { s with outQueue := [], submitted := s.submitted ++ [p],
                          credit := s.credit - 1, outPC := OutPC.serializing p } := rfl
      have e4 : step { s with outQueue := [], submitted := s.submitted ++ [p],
                              credit := s.credit - 1, outPC := OutPC.serializing p }
          Label.outSerializeOk
          = some { s with outQueue := [], submitted := s.submitted ++ [p],
                          credit := s.credit - 1, outPC := OutPC.writing p } := rfl
      have e5 : step { s with outQueue := [], submitted := s.submitted ++ [p],
                              credit := s.credit - 1, outPC := OutPC.writing p }
          Label.outWriteOk
          = some { s with outQueue := [], submitted := s.submitted ++ [p],
                          credit := s.credit - 1, wire := s.wire ++ [p],
                          outPC := OutPC.acquire } := rfl
      obtain ⟨t, ht, hw, hsub⟩ := ih
        { s with outQueue := [], submitted := s.submitted ++ [p],
                 credit := s.credit - 1, wire := s.wire ++ [p], outPC := OutPC.acquire }
        hA rfl rfl (by simp only [List.length_cons] at hn; show ps.length ≤ s.credit - 1; omega)
      refine ⟨t, ?_, ?_, ?_⟩
      · show runFrom s (c5Sched (p :: ps)) = some t
        simp only [c5Sched, runFrom, e1, e2, e3, e4, e5]
        exact ht
      · rw [hw]; simp
      · rw [hsub]; simp

/-- While the outbound task sits at the acquire point with the counter at
0, no run avoiding the inbound credit release can change the wire, the
counter, or unblock the task. -/
lemma blocked_while_no_release : ∀ (ls : List Label) (s t : CoreState),
    Label.inRelease ∉ ls → s.outPC = OutPC.acquire → s.credit = 0 →
    runFrom s ls = some t →
    t.outPC = OutPC.acquire ∧ t.credit = 0 ∧ t.wire = s.wire := by
  intro ls
  induction ls with
  | nil => intro s t _ hpc hcr h; cases h; exact ⟨hpc, hcr, rfl⟩
  | cons l rest ih =>
      intro s t hmem hpc hcr h
      simp only [runFrom] at h
      cases heq : step s l with
      | none => rw [heq] at h; cases h
      | some u =>
          rw [heq] at h
          have hl : l ≠ Label.inRelease := by
            intro e; subst e; exact hmem (List.mem_cons_self _ _)
          have hstep : u.outPC = OutPC.acquire ∧ u.credit = 0 ∧ u.wire = s.wire := by
            cases l <;> first
              | exact absurd rfl hl
              | (simp only [step] at heq
                 (repeat' split at heq) <;> cases heq <;>
                   first
                     | exact ⟨hpc, hcr, rfl⟩
                     | simp_all)
          obtain ⟨h1, h2, h3⟩ := hstep
          obtain ⟨g1, g2, g3⟩ := ih u t (fun hm => hmem (List.mem_cons_of_mem _ hm)) h1 h2 h
          exact ⟨g1, g2, by rw [g3, h3]⟩

/-! ## Claim theorems -/

/-- C10: `Core::start` panics (via `.unwrap()`) whenever clearing the
transport buffers fails or splitting the transport into a second handle
fails; the error is not surfaced as a return value. On success the core
starts with Flow Credit initialized to `buffer_size`. -/
theorem C10_start_panics_on_collaborator_failure :
    (∀ cloneOk n, startCore false cloneOk n = StartResult.panicked)
    ∧ (∀ n, startCore true false n = StartResult.panicked)
    ∧ (∀ n, startCore true true n = StartResult.started (initState n)) :=
  ⟨fun _ _ => rfl, fun _ => rfl, fun _ => rfl⟩

/-- C3: in the outbound write-retry loop, a transient timeout retries the
same write with no change to Flow Credit; each hard write error performs
exactly one credit increment and retries the same write; at most one copy
of a frame ever reaches the transport; and for the scenario of three
timeouts followed by a success, exactly one copy is written and the credit
counter is unchanged. -/
theorem C3_write_retry_policy (rs : List WriteRes) (c : Nat) :
    writeLoop (WriteRes.timedOut :: rs) c = writeLoop rs c
    ∧ writeLoop (WriteRes.err :: rs) c = writeLoop rs (c + 1)
    ∧ (writeLoop rs c).2.1 ≤ 1
    ∧ writeLoop [WriteRes.timedOut, WriteRes.timedOut, WriteRes.timedOut, WriteRes.ok] c
        = (c, 1, true) :=
  ⟨rfl, rfl, writeLoop_copies_le_one rs c, rfl⟩

/-- C2 counterexample: the hard-write-failure refund (line 170 of
`core.rs`) is not the capped, waking release the claim describes. From a
state with `buffer_size = 1` and counter `1`, a hard write error drives the
counter to `2 > buffer_size`; and the refund from counter `0` transitions
the counter from 0 to positive without notifying any waiter. -/
theorem C2_counterexample :
    (outboundRefund 1).1 = 2 ∧ 1 < (outboundRefund 1).1
    ∧ (outboundRefund 0).1 = 1 ∧ (outboundRefund 0).2 = false
    ∧ step { c6Mid with credit := 1, outPC := OutPC.writing 2 } Label.outWriteErr
        = some { c6Mid with credit := 2, outPC := OutPC.writing 2 } := by
  refine ⟨rfl, by decide, rfl, rfl, by decide⟩

/-- C2 (amended): the inbound release (lines 100–105) atomically increments
the counter only while it is strictly below `buffer_size` and notifies one
waiter exactly when it increments (hence on every 0 → positive transition);
the outbound hard-write-failure refund (line 170) increments the counter
unconditionally — with no cap — and never notifies a waiter. -/
theorem C2_release_and_refund (b c : Nat) :
    (c < b → inboundRelease b c = (c + 1, true))
    ∧ (b ≤ c → inboundRelease b c = (c, false))
    ∧ outboundRefund c = (c + 1, false)
    ∧ (∀ s : CoreState, s.inPC = InPC.releasing →
        step s Label.inRelease
          = some { s with credit := (inboundRelease s.bufferSize s.credit).1,
                          inPC := InPC.reading })
    ∧ (∀ s : CoreState, ∀ p, s.outPC = OutPC.writing p →
        step s Label.outWriteErr = some { s with credit := (outboundRefund s.credit).1 }) := by
  refine ⟨fun h => by simp [inboundRelease, h], fun h => by simp [inboundRelease, Nat.not_lt.2 h],
    rfl, fun s hs => by simp [step, hs], fun s p hs => by simp [step, hs]⟩

/-- C2 witness: the amended release/refund behavior at concrete inputs. -/
theorem C2_release_and_refund_witness :
    inboundRelease 2 1 = (2, true) ∧ inboundRelease 2 2 = (2, false)
    ∧ outboundRefund 5 = (6, false) :=
  ⟨(C2_release_and_refund 2 1).1 (by decide), (C2_release_and_refund 2 2).2.1 (by decide),
    (C2_release_and_refund 2 5).2.2.1⟩

/-- C7: the outbound acquire (`cvar.wait_until`, lines 138–145) fires only
when the counter is strictly positive, decrements it by exactly one, leaves
the Outbound Queue untouched, and moves control to the dequeue point; it is
disabled when the counter is 0 (never decrementing it there); a dequeue can
only happen from the post-acquire control point, and that control point is
only ever produced by the acquire itself. -/
theorem C7_acquire_semantics (s : CoreState) :
    (∀ t, step s Label.outAcquire = some t →
      0 < s.credit ∧ t.credit + 1 = s.credit ∧ t.outPC = OutPC.dequeue
        ∧ t.outQueue = s.outQueue)
    ∧ (s.credit = 0 → step s Label.outAcquire = none)
    ∧ (∀ t, step s Label.outDequeue = some t → s.outPC = OutPC.dequeue)
    ∧ (∀ l t, step s l = some t → t.outPC = OutPC.dequeue →
        s.outPC = OutPC.dequeue ∨ l = Label.outAcquire) := by
  refine ⟨?_, ?_, ?_, ?_⟩
  · intro t h
    simp only [step] at h
    split at h
    · next hc =>
        simp only [Bool.and_eq_true, decide_eq_true_eq] at hc
        cases h
        refine ⟨hc.2, ?_, rfl, rfl⟩
        show s.credit - 1 + 1 = s.credit
        omega
    · cases h
  · intro hc
    simp [step, hc]
  · intro t h
    simp only [step] at h
    split at h
    · next p rest hpc hq => exact hpc
    · cases h
  · intro l t h hpc
    cases l <;> simp only [step] at h <;> (repeat' split at h) <;>
      cases h <;> simp_all

/-- C7 witness: acquire at `initState 1` (counter 1). -/
theorem C7_acquire_semantics_witness :
    0 < (initState 1).credit
    ∧ ({ initState 1 with credit := 0, outPC := OutPC.dequeue } : CoreState).credit + 1
        = (initState 1).credit
    ∧ ({ initState 1 with credit := 0, outPC := OutPC.dequeue } : CoreState).outPC
        = OutPC.dequeue
    ∧ ({ initState 1 with credit := 0, outPC := OutPC.dequeue } : CoreState).outQueue
        = (initState 1).outQueue :=
  (C7_acquire_semantics (initState 1)).1
    { initState 1 with credit := 0, outPC := OutPC.dequeue } (by decide)

/-- C8: per parsed byte in the inbound pipeline (lines 92–110): a decoded
frame is first enqueued at the tail of the Inbound Queue — with the step
disabled (the task suspended) while the queue is at its 4096 capacity —
leaving the credit counter untouched, and control then forces exactly one
credit release (from the post-send point the only enabled inbound action is
the release, which performs the capped increment once and returns to the
read loop); a CRC error or an incomplete parse changes nothing. -/
theorem C8_inbound_byte_handling (s : CoreState) (p : Packet) :
    (s.inPC = InPC.reading → s.inQueue.length < readerCap →
      step s (Label.inFrame p)
        = some { s with inQueue := s.inQueue ++ [p], inPC := InPC.releasing })
    ∧ (readerCap ≤ s.inQueue.length → step s (Label.inFrame p) = none)
    ∧ (s.inPC = InPC.releasing →
        step s Label.inRelease
          = some { s with credit := (inboundRelease s.bufferSize s.credit).1,
                          inPC := InPC.reading }
        ∧ step s (Label.inFrame p) = none
        ∧ step s Label.inBadCrc = none
        ∧ step s Label.inIncomplete = none)
    ∧ (s.inPC = InPC.reading →
        step s Label.inBadCrc = some s ∧ step s Label.inIncomplete = some s) := by
  refine ⟨fun h1 h2 => by simp [step, h1, h2], fun h => by simp [step, Nat.not_lt.2 h],
    fun h => ?_, fun h => by simp [step, h]⟩
  have : s.inPC ≠ InPC.reading := by rw [h]; intro hc; cases hc
  exact ⟨by simp [step, h], by simp [step, this], by simp [step, this], by simp [step, this]⟩

/-- C8 witness: the inbound byte outcomes at the freshly started state. -/
theorem C8_inbound_byte_handling_witness :
    step (initState 2) (Label.inFrame 7)
      = some { initState 2 with inQueue := [7], inPC := InPC.releasing }
    ∧ step (initState 2) Label.inBadCrc = some (initState 2)
    ∧ step (initState 2) Label.inIncomplete = some (initState 2) :=
  ⟨by
    have h := (C8_inbound_byte_handling (initState 2) 7).1 (by decide) (by decide)
    simpa using h,
    ((C8_inbound_byte_handling (initState 2) 7).2.2.2 (by decide)).1,
    ((C8_inbound_byte_handling (initState 2) 7).2.2.2 (by decide)).2⟩

/-- C9: while any clone of the `Core` value is alive it holds a `Sender`
and `Receiver` of both channels (lines 16–24), so neither channel can be
closed: `Core::read` can suspend but never returns `None`, `Core::write`
succeeds whenever the queue has room, and the outbound task's
queue-closure `break` (line 148) is disabled. Moreover the reader channel
can never close at all, because `Core::start` discards the stop flag and
the inbound task therefore never drops its `Sender`. -/
theorem C9_no_closure_while_core_alive (s : CoreState) (h : s.coreAlive = true) :
    readerClosed s = false
    ∧ writerClosed s = false
    ∧ (∀ r t, readRecv s = some (r, t) → r.isSome)
    ∧ step s Label.outDequeueClosed = none
    ∧ (∀ p, s.outQueue.length < writerCap → ∃ t, step s (Label.submit p) = some t)
    ∧ readerClosed { s with coreAlive := false } = false := by
  refine ⟨by simp [readerClosed, readerSenderCount], by simp [writerClosed, writerSenderCount, h],
    ?_, by simp [step, writerClosed, writerSenderCount, h],
    fun p hp =>
      ⟨{ s with outQueue := s.outQueue ++ [p], submitted := s.submitted ++ [p] },
        by simp [step, h, hp]⟩,
    by simp [readerClosed, readerSenderCount]⟩
  intro r t hr
  simp only [readRecv] at hr
  split at hr
  · cases hr; rfl
  · rw [if_neg] at hr
    · cases hr
    · simp [readerClosed, readerSenderCount]

/-- C9 witness: no closure observable at the freshly started state. -/
theorem C9_no_closure_while_core_alive_witness :
    readerClosed (initState 1) = false ∧ writerClosed (initState 1) = false :=
  ⟨(C9_no_closure_while_core_alive (initState 1) rfl).1,
    (C9_no_closure_while_core_alive (initState 1) rfl).2.1⟩

/-- C1 counterexample: hard write failures do drive the Flow Credit counter
above `buffer_size`. With `buffer_size = 1`, submit one packet, let the
outbound task take the credit and dequeue it, and let `serial.write` fail
hard twice: each failure executes `*(lock.lock().await) += 1` (line 170),
so the counter reaches 2 > 1. -/
theorem C1_counterexample :
    ∃ s, runFrom (initState 1)
        [Label.submit 7, Label.outAcquire, Label.outDequeue, Label.outSerializeOk,
          Label.outWriteErr, Label.outWriteErr] = some s
      ∧ s.bufferSize < s.credit :=
  ⟨{ bufferSize := 1, credit := 2, inQueue := [], outQueue := [], wire := [],
     submitted := [7], received := [], outPC := OutPC.writing 7, inPC := InPC.reading,
     coreAlive := true }, by decide, by decide⟩

/-- C4 counterexample: a codec serialization failure terminates the
outbound pipeline even though the Outbound Queue was never closed:
`serialize_v2(...).expect("Failed to serialize")` (line 157) panics,
aborting the writer task while the `Core` is still alive. -/
theorem C4_counterexample :
    ∃ s, runFrom (initState 1)
        [Label.submit 5, Label.outAcquire, Label.outDequeue, Label.outSerializeErr]
        = some s
      ∧ s.outPC = OutPC.panicked ∧ s.coreAlive = true ∧ writerClosed s = false :=
  ⟨{ bufferSize := 1, credit := 0, inQueue := [], outQueue := [], wire := [],
     submitted := [5], received := [], outPC := OutPC.panicked, inPC := InPC.reading,
     coreAlive := true }, by decide, by decide, by decide, by decide⟩

/-- C1 (amended): along every execution containing no hard write failure,
the Flow Credit counter stays within `[0, buffer_size]`: it never exceeds
`buffer_size` (the inbound release is capped and the acquire only
decrements), and it is never decremented below 0 (the acquire is disabled
at counter 0). Hard write failures, however, refund without a cap and can
drive the counter above `buffer_size` (see the counterexample). -/
theorem C1_credit_bounds (n : Nat) (ls : List Label)
    (hl : Label.outWriteErr ∉ ls) (t : CoreState)
    (ht : runFrom (initState n) ls = some t) :
    t.credit ≤ n ∧ (∀ s : CoreState, s.credit = 0 → step s Label.outAcquire = none) := by
  constructor
  · have hb := bufferSize_of_runFrom ls (initState n) t ht
    have hle := credit_le_runFrom ls (initState n) t hl (le_refl n) ht
    rw [hb] at hle
    exact hle
  · intro s hs
    simp [step, hs]

/-- C1 witness: after submitting packet 3 and one acquire with
`buffer_size = 2`, the counter is 1 ≤ 2. -/
theorem C1_credit_bounds_witness :
    ({ bufferSize := 2, credit := 1, inQueue := [], outQueue := [3], wire := [],
       submitted := [3], received := [], outPC := OutPC.dequeue, inPC := InPC.reading,
       coreAlive := true } : CoreState).credit ≤ 2 :=
  (C1_credit_bounds 2 [Label.submit 3, Label.outAcquire] (by decide)
    { bufferSize := 2, credit := 1, inQueue := [], outQueue := [3], wire := [],
      submitted := [3], received := [], outPC := OutPC.dequeue, inPC := InPC.reading,
      coreAlive := true } (by decide)).1

/-- C4 (amended): read errors, read timeouts, checksum errors, incomplete
decodes, write timeouts and hard write errors never terminate either
pipeline; but besides the Outbound Queue closure `break`, a frame
serialization failure also terminates the outbound pipeline, by panic
(line 157) — so those two are the only terminating events. -/
theorem C4_outbound_termination_events (s t : CoreState) (l : Label)
    (h : step s l = some t) (hterm : outTerminated t) (hnot : ¬ outTerminated s) :
    l = Label.outDequeueClosed ∨ l = Label.outSerializeErr := by
  cases l <;> simp only [step] at h <;> (repeat' split at h) <;> cases h <;>
    first
      | exact absurd hterm hnot
      | exact Or.inl rfl
      | exact Or.inr rfl
      | (rcases hterm with h1 | h1 <;> cases h1)

/-- C4 witness: the serialization panic is a terminating event. -/
theorem C4_outbound_termination_events_witness :
    Label.outSerializeErr = Label.outDequeueClosed
    ∨ Label.outSerializeErr = Label.outSerializeErr :=
  C4_outbound_termination_events
    { initState 1 with credit := 0, submitted := [5], outPC := OutPC.serializing 5 }
    { initState 1 with credit := 0, submitted := [5], outPC := OutPC.panicked }
    Label.outSerializeErr (by decide) (by decide) (by decide)

/-- C5: frames submitted via `Core::write` are transmitted in submission
order with no reordering and no omission: along every execution, the wire
is a prefix of the submission history (whatever has been written is
exactly the first packets submitted, in order); and when the initial
credit suffices for all of them (`fs.length ≤ buffer_size`), the run in
which the outbound task carries each packet to the transport writes
exactly the submitted sequence. -/
theorem C5_submission_order_preserved (n : Nat) (ls : List Label) (t : CoreState)
    (ht : runFrom (initState n) ls = some t)
    (fs : List Packet) (hn : fs.length ≤ n) :
    (∃ rest, t.wire ++ rest = t.submitted)
    ∧ (∃ u, runFrom (initState n) (c5Sched fs) = some u
        ∧ u.wire = fs ∧ u.submitted = fs) := by
  constructor
  · have hinv := orderInv_runFrom ls (initState n) t (Or.inl rfl) ht
    rcases hinv with hinv | ⟨_, mid, hmid⟩
    · exact ⟨inflight t.outPC ++ t.outQueue, by rw [hinv]; simp⟩
    · exact ⟨mid, hmid.symm⟩
  · obtain ⟨u, hu, hw, hsub⟩ := c5Sched_run fs (initState n) rfl rfl rfl hn
    exact ⟨u, hu, by simpa using hw, by simpa using hsub⟩

/-- C5 witness: with `buffer_size = 1` and one packet, the schedule puts
exactly packet 4 on the wire, and the empty run's wire is a prefix of its
submissions. -/
theorem C5_submission_order_preserved_witness :
    (∃ rest, (initState 1).wire ++ rest = (initState 1).submitted)
    ∧ (∃ u, runFrom (initState 1) (c5Sched [4]) = some u
        ∧ u.wire = [4] ∧ u.submitted = [4]) :=
  C5_submission_order_preserved 1 [] (initState 1) rfl [4] (by decide)

/-- C6: with `buffer_size = 1`, after submitting packets 1 and 2 before any
inbound decode, the outbound task writes packet 1 using the single initial
credit and reaches the acquire point with the counter at 0 and packet 2
still queued; every continuation that avoids the inbound credit release
leaves the wire at exactly `[1]` (packet 2 is not written); and one inbound
decode followed by its release unblocks exactly packet 2's write. -/
theorem C6_buffer_one_scenario (ls : List Label) (hls : Label.inRelease ∉ ls)
    (t : CoreState) (ht : runFrom c6Mid ls = some t) :
    runFrom (initState 1)
        [Label.submit 1, Label.submit 2, Label.outAcquire, Label.outDequeue,
          Label.outSerializeOk, Label.outWriteOk] = some c6Mid
    ∧ c6Mid.wire = [1] ∧ c6Mid.outQueue = [2] ∧ c6Mid.credit = 0
    ∧ t.wire = [1]
    ∧ (∃ u, runFrom c6Mid
          [Label.inFrame 9, Label.inRelease, Label.outAcquire, Label.outDequeue,
            Label.outSerializeOk, Label.outWriteOk] = some u
        ∧ u.wire = [1, 2] ∧ u.outQueue = []) := by
  refine ⟨by decide, rfl, rfl, rfl, ?_, ?_⟩
  · have hb := blocked_while_no_release ls c6Mid t hls rfl rfl ht
    rw [hb.2.2]
    rfl
  · exact ⟨{ bufferSize := 1, credit := 0, inQueue := [9], outQueue := [], wire := [1, 2],
             submitted := [1, 2], received := [], outPC := OutPC.acquire,
             inPC := InPC.reading, coreAlive := true }, by decide, rfl, rfl⟩

/-- C6 witness: the scenario applied to the empty continuation. -/
theorem C6_buffer_one_scenario_witness :
    c6Mid.wire = [1] ∧ c6Mid.outQueue = [2] ∧ c6Mid.credit = 0 :=
  ⟨(C6_buffer_one_scenario [] (by decide) c6Mid rfl).2.1,
    (C6_buffer_one_scenario [] (by decide) c6Mid rfl).2.2.1,
    (C6_buffer_one_scenario [] (by decide) c6Mid rfl).2.2.2.1⟩

end BlackboxPuller
